import Mathlib

/-!
Verification of the doctime-bot conversation controller, session store and
callback-hash scheme, shallowly embedded from `src/index.ts`.

Conventions of the embedding:
* JavaScript numbers holding Telegram identifiers are embedded as `Nat`;
  JavaScript falsiness of a number is `= 0`, of a string is `= ""`,
  of an optional value is `Option.isNone` (or falsiness of the payload).
* 32-bit machine words in the SHA-256 core are `Nat` reduced `% 2 ^ 32`
  wherever the JavaScript semantics would wrap.
* A JavaScript plain object used as a string-keyed dictionary is an
  association list in insertion order (property update keeps the original
  key position, a new key is appended), matching the enumeration order
  JSON.stringify observes.
* Fallible operations return `Option` / `Except`.
-/

namespace Doctime

/-! ## SHA-256 core, embedding `createHash("sha256")` as used by
`generateHash` in src/index.ts (lines 255-257). -/

/-- 2^32, the word modulus of SHA-256. -/
def M32 : Nat := 4294967296

/-- Right rotation of a 32-bit word. -/
def rotr (k x : Nat) : Nat := ((x >>> k) ||| (x <<< (32 - k))) % M32

/-- Logical right shift. -/
def shr (k x : Nat) : Nat := x >>> k

/-- Bitwise complement on 32 bits. -/
def not32 (x : Nat) : Nat := x ^^^ 4294967295

/-- FIPS 180-4 Σ0. -/
def bSig0 (x : Nat) : Nat := rotr 2 x ^^^ rotr 13 x ^^^ rotr 22 x

/-- FIPS 180-4 Σ1. -/
def bSig1 (x : Nat) : Nat := rotr 6 x ^^^ rotr 11 x ^^^ rotr 25 x

/-- FIPS 180-4 σ0. -/
def sSig0 (x : Nat) : Nat := rotr 7 x ^^^ rotr 18 x ^^^ shr 3 x

/-- FIPS 180-4 σ1. -/
def sSig1 (x : Nat) : Nat := rotr 17 x ^^^ rotr 19 x ^^^ shr 10 x

/-- FIPS 180-4 Ch. -/
def chFn (x y z : Nat) : Nat := (x &&& y) ^^^ (not32 x &&& z)

/-- FIPS 180-4 Maj. -/
def majFn (x y z : Nat) : Nat := (x &&& y) ^^^ (x &&& z) ^^^ (y &&& z)

/-- SHA-256 round constants. -/
def K256 : List Nat :=
  [1116352408, 1899447441, 3049323471, 3921009573, 961987163,
   1508970993, 2453635748, 2870763221, 3624381080, 310598401,
   607225278, 1426881987, 1925078388, 2162078206, 2614888103,
   3248222580, 3835390401, 4022224774, 264347078, 604807628,
   770255983, 1249150122, 1555081692, 1996064986, 2554220882,
   2821834349, 2952996808, 3210313671, 3336571891, 3584528711,
   113926993, 338241895, 666307205, 773529912, 1294757372,
   1396182291, 1695183700, 1986661051, 2177026350, 2456956037,
   2730485921, 2820302411, 3259730800, 3345764771, 3516065817,
   3600352804, 4094571909, 275423344, 430227734, 506948616,
   659060556, 883997877, 958139571, 1322822218, 1537002063,
   1747873779, 1955562222, 2024104815, 2227730452, 2361852424,
   2428436474, 2756734187, 3204031479, 3329325298]

/-- SHA-256 initial hash value. -/
def H0 : List Nat :=
  [1779033703, 3144134277, 1013904242, 2773480762, 1359893119,
   2600822924, 528734635, 1541459225]

/-- One step of the message-schedule extension; the schedule is kept newest
word first. -/
def schedStep (rw : List Nat) : List Nat :=
  ((sSig1 (rw.getD 1 0) + rw.getD 6 0 + sSig0 (rw.getD 14 0) + rw.getD 15 0) % M32) :: rw

/-- Full 64-word message schedule of a 16-word block. -/
def buildSchedule (block : List Nat) : List Nat :=
  ((List.range 48).foldl (fun acc _ => schedStep acc) block.reverse).reverse

/-- One round of the compression function on the working state
`[a,b,c,d,e,f,g,h]`. -/
def compressStep (st : List Nat) (kt wt : Nat) : List Nat :=
  match st with
  | [a, b, c, d, e, f, g, h] =>
    let t1 := (h + bSig1 e + chFn e f g + kt + wt) % M32
    let t2 := (bSig0 a + majFn a b c) % M32
    [(t1 + t2) % M32, a, b, c, (d + t1) % M32, e, f, g]
  | other => other

/-- Process one 512-bit block. -/
def compressBlock (hv : List Nat) (block : List Nat) : List Nat :=
  let w := buildSchedule block
  let st := (K256.zip w).foldl (fun s kw => compressStep s kw.1 kw.2) hv
  (hv.zip st).map (fun p => (p.1 + p.2) % M32)

/-- `k` bytes of `n`, big endian. -/
def bytesBE : Nat → Nat → List Nat
  | 0, _ => []
  | k + 1, n => bytesBE k (n / 256) ++ [n % 256]

/-- SHA-256 padding of a byte string: append 0x80, zeros to 56 mod 64, then
the 64-bit big-endian bit length. -/
def padMessage (msg : List Nat) : List Nat :=
  let L := msg.length
  let zeros := (120 - (L + 1) % 64) % 64
  msg ++ [128] ++ List.replicate zeros 0 ++ bytesBE 8 (L * 8)

/-- Group bytes into 32-bit big-endian words. -/
def toWords : List Nat → List Nat
  | b0 :: b1 :: b2 :: b3 :: rest => (((b0 * 256 + b1) * 256 + b2) * 256 + b3) :: toWords rest
  | _ => []

/-- Group words into 16-word blocks (the padded message is always a whole
number of blocks). -/
def toBlocks : List Nat → List (List Nat)
  | w0 :: w1 :: w2 :: w3 :: w4 :: w5 :: w6 :: w7 ::
    w8 :: w9 :: w10 :: w11 :: w12 :: w13 :: w14 :: w15 :: rest =>
    [w0, w1, w2, w3, w4, w5, w6, w7, w8, w9, w10, w11, w12, w13, w14, w15]
      :: toBlocks rest
  | _ => []

/-- The eight 32-bit digest words of a byte message. -/
def sha256Words (msg : List Nat) : List Nat :=
  (toBlocks (toWords (padMessage msg))).foldl compressBlock H0

/-- The 256-bit digest as a single natural number. -/
def sha256Nat (msg : List Nat) : Nat :=
  (sha256Words msg).foldl (fun acc w => acc * M32 + w) 0

/-- UTF-8 encoding of a single code point. -/
def utf8EncodeCp (c : Nat) : List Nat :=
  if c < 128 then [c]
  else if c < 2048 then [192 + c / 64, 128 + c % 64]
  else if c < 65536 then [224 + c / 4096, 128 + c / 64 % 64, 128 + c % 64]
  else [240 + c / 262144, 128 + c / 4096 % 64, 128 + c / 64 % 64, 128 + c % 64]

/-- UTF-8 bytes of a string, the input `createHash("sha256").update(text)`
hashes. -/
def utf8Bytes (s : String) : List Nat :=
  (s.data.map (fun c => utf8EncodeCp c.toNat)).flatten

/-- Lower-case hex digit. -/
def hexChar : Nat → Char
  | 0 => '0' | 1 => '1' | 2 => '2' | 3 => '3'
  | 4 => '4' | 5 => '5' | 6 => '6' | 7 => '7'
  | 8 => '8' | 9 => '9' | 10 => 'a' | 11 => 'b'
  | 12 => 'c' | 13 => 'd' | 14 => 'e' | _ => 'f'

/-- The `k` low hex digits of `n`, most significant first (zero padded), as
`digest("hex")` prints a digest of known width. -/
def hexDigits : Nat → Nat → List Char
  | 0, _ => []
  | k + 1, n => hexDigits k (n / 16) ++ [hexChar (n % 16)]

/-- The 64-character hex digest of a string. -/
def digestHex (s : String) : List Char := hexDigits 64 (sha256Nat (utf8Bytes s))

/-- `generateHash` (src/index.ts lines 255-257):
`createHash("sha256").update(text).digest("hex").substring(0, 32)`. -/
def generateHash (s : String) : String := String.mk ((digestHex s).take 32)

/-! ## Data model: UserState, callback map and the session store
(src/index.ts lines 11-106). -/

/-- A JavaScript string-keyed dictionary in insertion order. Property update
keeps the original key position; a new key is appended. -/
def objSet : List (String × String) → String → String → List (String × String)
  | [], k, v => [(k, v)]
  | (k0, v0) :: t, k, v =>
    if k0 = k then (k0, v) :: t else (k0, v0) :: objSet t k v

/-- Property read on a JavaScript dictionary (`undefined` is `none`). -/
def objGet : List (String × String) → String → Option String
  | [], _ => none
  | (k0, v0) :: t, k => if k0 = k then some v0 else objGet t k

/-- A JavaScript `Map` built from an entry list (`new Map(entries)`):
a repeated key keeps its first position and the last value. -/
def mapFromEntries (e : List (String × String)) : List (String × String) :=
  e.foldl (fun acc kv => objSet acc kv.1 kv.2) []

/-- The runtime value held in `UserState.callbackMap`. The current code only
ever constructs the plain-object form (`{}` literals); the `jsMap` form is
what `loadSessions` builds from a legacy array-encoded session file. On
either form, `m[k] = v` / `m[k]` are ordinary property accesses, and on a
`Map` object they see only ordinary properties (`props`), never the map
entries. -/
inductive CBStore where
  | obj (props : List (String × String))
  | jsMap (entries : List (String × String)) (props : List (String × String))
  deriving DecidableEq, Repr

/-- Property read `cb[key]` on a callback store. -/
def cbGet : CBStore → String → Option String
  | .obj props, k => objGet props k
  | .jsMap _ props, k => objGet props k

/-- Property write `cb[key] = v` on a callback store. -/
def cbSet : CBStore → String → String → CBStore
  | .obj props, k, v => .obj (objSet props k v)
  | .jsMap e props, k, v => .jsMap e (objSet props k v)

/-- `UserState` (src/index.ts lines 11-17); every field is optional in the
TypeScript interface, `none` embeds `undefined`/absent. -/
structure UserState where
  diagnosis : Option String := none
  sections : Option (List String) := none
  messageIds : Option (List Nat) := none
  callbackMap : Option CBStore := none
  currentSection : Option String := none
  deriving DecidableEq, Repr

/-- `Partial<UserState>`: the outer `Option` is key presence in the partial
object, the inner value is the (possibly `undefined`) value supplied for
the key. -/
structure UserStatePatch where
  diagnosis : Option (Option String) := none
  sections : Option (Option (List String)) := none
  messageIds : Option (Option (List Nat)) := none
  callbackMap : Option (Option CBStore) := none
  currentSection : Option (Option String) := none
  deriving DecidableEq, Repr

/-- `SessionData`: user id to state, as an association list in insertion
order (a JavaScript object with numeric-string keys). -/
abbrev SessionStore := List (Nat × UserState)

/-- `this.sessionData[userId]` read. -/
def storeGet : SessionStore → Nat → Option UserState
  | [], _ => none
  | (u0, s0) :: t, u => if u0 = u then some s0 else storeGet t u

/-- `this.sessionData[userId] = state` write. -/
def storeSet : SessionStore → Nat → UserState → SessionStore
  | [], u, s => [(u, s)]
  | (u0, s0) :: t, u, s =>
    if u0 = u then (u0, s) :: t else (u0, s0) :: storeSet t u s

/-- `delete this.sessionData[userId]`. -/
def storeDel : SessionStore → Nat → SessionStore
  | [], _ => []
  | (u0, s0) :: t, u => if u0 = u then t else (u0, s0) :: storeDel t u

/-- The spread `{ ...existing, ...update }` of `updateUserState`
(src/index.ts line 91): a key present in the partial replaces the whole
field, any other field is taken from the existing state. -/
def mergeUserState (ex : UserState) (p : UserStatePatch) : UserState where
  diagnosis := p.diagnosis.getD ex.diagnosis
  sections := p.sections.getD ex.sections
  messageIds := p.messageIds.getD ex.messageIds
  callbackMap := p.callbackMap.getD ex.callbackMap
  currentSection := p.currentSection.getD ex.currentSection

/-- The empty state `{}` created when `updateUserState` finds no entry
(src/index.ts lines 87-89). -/
def emptyUserState : UserState := {}

/-- `SessionManager.updateUserState` (src/index.ts lines 86-93), memory
part: create `{}` if absent, then shallow-merge and store. -/
def updateUserState (store : SessionStore) (u : Nat) (p : UserStatePatch) : SessionStore :=
  storeSet store u (mergeUserState ((storeGet store u).getD emptyUserState) p)

/-! ## Serialization: `saveSessions` / `loadSessions`
(src/index.ts lines 36-75). The JSON layer is faithful for this data shape
(strings, integers, arrays, plain objects in key order; `Object.entries` /
`Object.fromEntries` with numeric-string keys round-trip the user-id key),
so it is embedded as the identity on a serialized-store shape that records
exactly the one distinction the code makes: a `Map` value is written as an
array of entries, a plain object as a JSON object. -/

/-- The serialized shape of a callback map in the session file. -/
inductive SerCB where
  | serObj (props : List (String × String))
  | serArr (entries : List (String × String))
  deriving DecidableEq, Repr

/-- One user state as written to `session.json`. -/
structure SerState where
  diagnosis : Option String := none
  sections : Option (List String) := none
  messageIds : Option (List Nat) := none
  cb : Option SerCB := none
  currentSection : Option String := none
  deriving DecidableEq, Repr

/-- The serialized session file. -/
abbrev SerializedStore := List (Nat × SerState)

/-- Per-state half of `saveSessions` (lines 61-69): a `Map` becomes
`Array.from(map.entries())`, anything else is stringified as is. -/
def saveState (st : UserState) : SerState where
  diagnosis := st.diagnosis
  sections := st.sections
  messageIds := st.messageIds
  cb := match st.callbackMap with
    | none => none
    | some (.obj props) => some (.serObj props)
    | some (.jsMap entries _) => some (.serArr entries)
  currentSection := st.currentSection

/-- `saveSessions` (src/index.ts lines 59-75), successful-write path. -/
def saveSessions (l : SessionStore) : SerializedStore :=
  l.map (fun p => (p.1, saveState p.2))

/-- Per-state half of `loadSessions` (lines 43-50): an array-valued
`callbackMap` becomes `new Map(entries)`, anything else is kept. -/
def loadState (s : SerState) : UserState where
  diagnosis := s.diagnosis
  sections := s.sections
  messageIds := s.messageIds
  callbackMap := match s.cb with
    | none => none
    | some (.serObj props) => some (.obj props)
    | some (.serArr entries) => some (.jsMap (mapFromEntries entries) [])
  currentSection := s.currentSection

/-- `loadSessions` (src/index.ts lines 36-57), successful-read path. -/
def loadSessions (f : SerializedStore) : SessionStore :=
  f.map (fun p => (p.1, loadState p.2))

/-! ## Conversation controller (src/index.ts lines 108-547), embedded as
explicit state passing with an emitted-effect trace. Outbound transport and
content-API calls become `Effect`s; the API result and the message ids the
transport assigns are parameters of the handler environment. -/

/-- An inline-keyboard button: display label and `callback_data`. -/
structure KButton where
  label : String
  data : String
  deriving DecidableEq, Repr

/-- The "Ввести новый диагноз" button used throughout. -/
def newDiagBtn : KButton := ⟨"Ввести новый диагноз", "new_diagnosis"⟩

/-- Externally visible actions of a handler, in order. -/
inductive Effect where
  | replyMd (text : String) (keyboard : List (List KButton))
  | deleteMsg (mid : Nat)
  | fetchSimilar (q : String)
  | fetchSections (d : String)
  | fetchContent (d : String) (sectionTitle : String)
  deriving DecidableEq, Repr

/-- The per-update context: `ctx.from?.id` and `ctx.userState`. -/
structure BotCtx where
  fromId : Option Nat
  userState : Option UserState
  deriving DecidableEq, Repr

/-- A JavaScript number id is truthy iff nonzero; `some uid` with
`uid ≠ 0`. -/
def truthyId : Option Nat → Option Nat
  | none => none
  | some u => if u = 0 then none else some u

/-- Whole-interaction state threaded through a handler: context, session
store, effect trace so far, count of messages sent so far. -/
structure W where
  ctx : BotCtx
  store : SessionStore
  eff : List Effect
  sent : Nat
  deriving DecidableEq

/-- Handler environment: transport-assigned message ids (by send index),
whether a given delete succeeds, and the content-API result for
`getSection` (`Except` models a thrown fetch failure). -/
structure HandlerEnv where
  mid : Nat → Nat
  deleteOk : Nat → Bool
  content : Except Unit String

/-- Emit a `replyWithMarkdown` and return the sent message id. -/
def emitReply (env : HandlerEnv) (w : W) (text : String)
    (keyboard : List (List KButton)) : W × Nat :=
  let m := env.mid w.sent
  ({ w with eff := w.eff ++ [.replyMd text keyboard], sent := w.sent + 1 }, m)

/-- `saveMessageId` (src/index.ts lines 309-318). -/
def saveMessageId (w : W) (m : Nat) : W :=
  match truthyId w.ctx.fromId with
  | none => w
  | some uid =>
    match w.ctx.userState with
    | none => w
    | some st =>
      let ids := st.messageIds.getD [] ++ [m]
      { w with
        store := updateUserState w.store uid { messageIds := some (some ids) }
        ctx := { w.ctx with userState := some { st with messageIds := some ids } } }

/-- `clearPreviousMessages` (src/index.ts lines 283-307): guard on a truthy
user id and a non-empty `messageIds`; best-effort per-message deletes; then
reset `messageIds` to `[]` both in the store (keeping the context's
`callbackMap` value, possibly `undefined`) and in the context state. -/
def clearPreviousMessages (_env : HandlerEnv) (w : W) : W :=
  match truthyId w.ctx.fromId with
  | none => w
  | some uid =>
    match w.ctx.userState with
    | none => w
    | some st =>
      match st.messageIds with
      | none => w
      | some [] => w
      | some ids =>
        let w1 := { w with eff := w.eff ++ ids.map Effect.deleteMsg }
        { w1 with
          store := updateUserState w1.store uid
            { messageIds := some (some []), callbackMap := some st.callbackMap }
          ctx := { w1.ctx with userState := some { st with messageIds := some [] } } }

/-- `sendErrorMessage` (src/index.ts lines 510-516). -/
def sendErrorMessage (env : HandlerEnv) (w : W) (message : String) : W :=
  let r := emitReply env w (message ++ ". Пожалуйста, попробуйте снова.")
    [[newDiagBtn]]
  saveMessageId r.1 r.2

/-- `sendLoadError` (src/index.ts lines 526-532), the generic API-failure
reply. -/
def sendLoadError (env : HandlerEnv) (w : W) : W :=
  let r := emitReply env w "Произошла ошибка при загрузке информации. Попробуйте позже."
    [[newDiagBtn]]
  saveMessageId r.1 r.2

/-- `sendSearchError` (src/index.ts lines 518-524). -/
def sendSearchError (env : HandlerEnv) (w : W) : W :=
  let r := emitReply env w "Произошла ошибка при поиске диагнозов. Попробуйте позже."
    [[newDiagBtn]]
  saveMessageId r.1 r.2

/-- `storeCallbackMapping` (src/index.ts lines 259-276): returns `""` and
stores nothing without a truthy user id and an attached state; otherwise
hashes the value, inserts `type:hash ↦ value` into the context's callback
map (creating `{}` if absent) and persists it, returning the hash. -/
def storeCallbackMapping (w : W) (originalValue : String)
    (type : String) : String × W :=
  match truthyId w.ctx.fromId with
  | none => ("", w)
  | some uid =>
    match w.ctx.userState with
    | none => ("", w)
    | some st =>
      let hash := generateHash originalValue
      let key := type ++ ":" ++ hash
      let cb := cbSet (st.callbackMap.getD (.obj [])) key originalValue
      (hash,
        { w with
          store := updateUserState w.store uid { callbackMap := some (some cb) }
          ctx := { w.ctx with userState := some { st with callbackMap := some cb } } })

/-- `resolveCallbackMapping` (src/index.ts lines 278-281):
`(userId && ctx.userState?.callbackMap?.[callbackData]) || null`; note a
falsy (empty-string) stored value also resolves to `null`. -/
def resolveCallbackMapping (w : W) (callbackData : String) : Option String :=
  match truthyId w.ctx.fromId with
  | none => none
  | some _ =>
    match w.ctx.userState with
    | none => none
    | some st =>
      match st.callbackMap with
      | none => none
      | some cb =>
        match cbGet cb callbackData with
        | none => none
        | some v => if v = "" then none else some v

/-- JavaScript `String.prototype.lastIndexOf`: the largest start position
(up to the string length) where the search string occurs, else `-1`. -/
def jsStrLastIndexOf (s sub : String) : Int :=
  match ((List.range (s.data.length + 1)).filter
      (fun i => (s.data.drop i).take sub.data.length = sub.data)).reverse with
  | [] => -1
  | i :: _ => (i : Int)

/-- JavaScript `Array.prototype.indexOf`: first index of the element, else
`-1`. -/
def jsArrIndexOf : List String → String → Int
  | [], _ => -1
  | a :: t, x =>
    if a = x then 0
    else
      let r := jsArrIndexOf t x
      if r < 0 then -1 else r + 1

/-- The candidate filter of `showDiagnosisOptions` (src/index.ts lines
371-373), exactly as written: it compares `diagnosis.lastIndexOf(diagnosis)`
(an index into the candidate STRING, always 0) with
`diagnoses.indexOf(diagnosis)` (an index into the candidate ARRAY). -/
def correctDiagnoses (diagnoses : List String) : List String :=
  diagnoses.filter
    (fun diagnosis => jsStrLastIndexOf diagnosis diagnosis = jsArrIndexOf diagnoses diagnosis)

/-- The diagnosis button rows of `showDiagnosisOptions` (lines 375-380),
threading the callback-map stores left to right. -/
def diagnosisRows (w : W) (ds : List String) : W × List (List KButton) :=
  match ds with
  | [] => (w, [])
  | d :: t =>
    let r := storeCallbackMapping w d "diagnosis"
    let rest := diagnosisRows r.2 t
    (rest.1, [⟨d, "select_diagnosis:" ++ r.1⟩] :: rest.2)

/-- `showDiagnosisOptions` (src/index.ts lines 370-390). -/
def showDiagnosisOptions (env : HandlerEnv) (w : W) (diagnoses : List String) : W :=
  let br := diagnosisRows w (correctDiagnoses diagnoses)
  let keyboard := br.2 ++ [[newDiagBtn]]
  let r := emitReply env br.1 "Найдены следующие диагнозы. Выберите подходящий:" keyboard
  saveMessageId r.1 r.2

/-- Sort priority of a section title in `displaySectionsList` (lines
446-451): "Лечение" and "Диагностика" sort first. -/
def sectionPriority (s : String) : Nat :=
  if s = "Лечение" ∨ s = "Диагностика" then 0 else 1

/-- The comparator passed to `Array.prototype.sort`:
`priorityA - priorityB`. -/
def sectionCmp (a b : String) : Int :=
  (sectionPriority a : Int) - (sectionPriority b : Int)

/-- Stable insertion step: the element goes before the first strictly
greater element, after equal ones. -/
def jsSortInsert (cmp : String → String → Int) (x : String) :
    List String → List String
  | [] => [x]
  | y :: t => if cmp x y < 0 then x :: y :: t else y :: jsSortInsert cmp x t

/-- `Array.prototype.sort(cmp)`: stable (ES2019) and, for the consistent
two-valued comparator used here, equal to stable insertion sort. -/
def jsStableSort (cmp : String → String → Int) (l : List String) : List String :=
  l.foldl (fun acc x => jsSortInsert cmp x acc) []

/-- The displayed section list of `displaySectionsList` (lines 444-451):
drop "МКБ", then sort with the priority comparator. -/
def correctSections (sections : List String) : List String :=
  jsStableSort sectionCmp (sections.filter (fun s => s ≠ "МКБ"))

/-- The section buttons (lines 453-458), threading callback-map stores. -/
def sectionButtons (w : W) (secs : List String) : W × List KButton :=
  match secs with
  | [] => (w, [])
  | s :: t =>
    let r := storeCallbackMapping w s "section"
    let rest := sectionButtons r.2 t
    (rest.1, ⟨s, "select_section:" ++ r.1⟩ :: rest.2)

/-- The pairing loop of lines 460-463: `slice(i, i + 2)` with `i += 2`. -/
def chunk2 : List KButton → List (List KButton)
  | [] => []
  | [a] => [[a]]
  | a :: b :: t => [a, b] :: chunk2 t

/-- `displaySectionsList` (src/index.ts lines 443-473). -/
def displaySectionsList (env : HandlerEnv) (w : W) (diagnosis : String)
    (sections : List String) : W :=
  let sb := sectionButtons w (correctSections sections)
  let keyboard := chunk2 sb.2 ++ [[newDiagBtn]]
  let r := emitReply env sb.1 ("*" ++ diagnosis ++ "*\n\nДоступные разделы:") keyboard
  saveMessageId r.1 r.2

/-- JavaScript `\s` (whitespace class) on the characters the content can
contain. -/
def jsWhitespace (c : Char) : Bool :=
  c = ' ' ∨ c = '\t' ∨ c = '\n' ∨ c = '\r' ∨ c = '\x0b' ∨ c = '\x0c'

/-- `content.replace(/###\s/g, "")`: left-to-right removal of each
`###`-plus-whitespace occurrence. -/
def stripHashWs : List Char → List Char
  | '#' :: '#' :: '#' :: c :: t =>
    if jsWhitespace c then stripHashWs t else '#' :: stripHashWs ('#' :: '#' :: c :: t)
  | c :: t => c :: stripHashWs t
  | [] => []

/-- `.replace(/###/g, "")`: removal of each remaining `###`. -/
def stripHash3 : List Char → List Char
  | '#' :: '#' :: '#' :: t => stripHash3 t
  | c :: t => c :: stripHash3 t
  | [] => []

/-- The content cleanup of `processSectionSelection` (line 493). -/
def correctContent (content : String) : String :=
  String.mk (stripHash3 (stripHashWs content.data))

/-- `processSectionSelection` (src/index.ts lines 475-508): silently drop a
falsy user id; require a truthy `diagnosis` in the persisted state (else the
fixed "Информация не найдена" error); then persist `currentSection`, send
the loading notice, fetch the content and either display it or send the
load-error reply. -/
def processSectionSelection (env : HandlerEnv) (w : W) (sectionTitle : String) : W :=
  match truthyId w.ctx.fromId with
  | none => w
  | some uid =>
    match (storeGet w.store uid).bind (fun s => s.diagnosis) with
    | none => sendErrorMessage env w "Информация не найдена"
    | some d =>
      if d = "" then sendErrorMessage env w "Информация не найдена"
      else
        let w1 := { w with store := (updateUserState w.store uid
          { currentSection := some (some sectionTitle) }) }
        let r := emitReply env w1 ("*" ++ sectionTitle ++ "*\n\nЗагружаю содержимое...") []
        let w2 := saveMessageId r.1 r.2
        let w3 := { w2 with eff := w2.eff ++ [.fetchContent d sectionTitle] }
        match env.content with
        | .ok content =>
          let r2 := emitReply env w3 ("*" ++ sectionTitle ++ "*\n\n" ++ correctContent content)
            [[⟨"Назад к разделам", "back_to_sections"⟩], [newDiagBtn]]
          saveMessageId r2.1 r2.2
        | .error _ => sendLoadError env w3

/-- `handleSectionSelection` (src/index.ts lines 226-238): clear previous
messages, resolve `section:<hash>`, reply the fixed "Раздел не найден"
error when it does not resolve, else process the selection. -/
def handleSectionSelection (env : HandlerEnv) (w : W) (hash : String) : W :=
  let w1 := clearPreviousMessages env w
  match resolveCallbackMapping w1 ("section:" ++ hash) with
  | none => sendErrorMessage env w1 "Раздел не найден"
  | some sectionTitle => processSectionSelection env w1 sectionTitle

/-! ## Startup configuration checks (src/index.ts lines 549-570). -/

/-- `a || b` on JavaScript strings: the default wins only on a falsy
(absent or empty) left operand. -/
def jsOrStr (o : Option String) (dflt : String) : String :=
  match o with
  | none => dflt
  | some s => if s = "" then dflt else s

/-- The environment variables the startup code reads. -/
structure StartEnv where
  botToken : Option String := none
  apiBaseUrl : Option String := none
  deriving DecidableEq, Repr

/-- Outcome of the startup sequence. -/
inductive StartResult where
  | exited (code : Nat) (diagnostic : String)
  | launched (token : String) (apiUrl : String)
  deriving DecidableEq, Repr

/-- The startup sequence (src/index.ts lines 549-570): read `BOT_TOKEN`
with default `""` and `API_BASE_URL` with default `"http://localhost"`,
exit 1 on a falsy value, else construct and launch the bot. -/
def startup (env : StartEnv) : StartResult :=
  let BOT_TOKEN := jsOrStr env.botToken ""
  let API_BASE_URL := jsOrStr env.apiBaseUrl "http://localhost"
  if BOT_TOKEN = "" then .exited 1 "Please set BOT_TOKEN environment variable"
  else if API_BASE_URL = "" then .exited 1 "Please set API_BASE_URL environment variable"
  else .launched BOT_TOKEN API_BASE_URL

/-! ## Supporting lemmas. -/

theorem storeGet_storeSet_self (l : SessionStore) (u : Nat) (v : UserState) :
    storeGet (storeSet l u v) u = some v := by
  induction l with
  | nil => simp [storeSet, storeGet]
  | cons e t ih =>
    by_cases h : e.1 = u
    · simp [storeSet, storeGet, h]
    · simp [storeSet, storeGet, h, ih]

theorem storeGet_updateUserState_self (l : SessionStore) (u : Nat) (p : UserStatePatch) :
    storeGet (updateUserState l u p) u
      = some (mergeUserState ((storeGet l u).getD emptyUserState) p) := by
  simp [updateUserState, storeGet_storeSet_self]

theorem chunk2_flatten : ∀ l : List KButton, (chunk2 l).flatten = l
  | [] => by simp [chunk2]
  | [a] => by simp [chunk2]
  | a :: b :: t => by simp [chunk2, chunk2_flatten t]

theorem chunk2_rows : ∀ l : List KButton, ∀ r ∈ chunk2 l, r.length ≤ 2 ∧ r ≠ []
  | [] => by simp [chunk2]
  | [a] => by simp [chunk2]
  | a :: b :: t => by
    intro r hr
    simp only [chunk2, List.mem_cons] at hr
    rcases hr with h | h
    · subst h; simp
    · exact chunk2_rows t r h

theorem sectionButtons_labels (secs : List String) :
    ∀ w : W, ((sectionButtons w secs).2.map KButton.label) = secs := by
  induction secs with
  | nil => intro w; simp [sectionButtons]
  | cons s t ih => intro w; simp [sectionButtons, ih]

theorem jsSortInsert_split (x : String) :
    ∀ A B : List String, (∀ a ∈ A, sectionPriority a = 0) →
      (∀ b ∈ B, sectionPriority b = 1) →
      jsSortInsert sectionCmp x (A ++ B)
        = if sectionPriority x = 0 then A ++ x :: B else A ++ B ++ [x] := by
  intro A
  induction A with
  | nil =>
    intro B _ hB
    induction B with
    | nil => by_cases hx : sectionPriority x = 0 <;> simp [jsSortInsert, hx]
    | cons b t ihB =>
      have hb := hB b (by simp)
      by_cases hx : sectionPriority x = 0
      · have : sectionCmp x b < 0 := by simp [sectionCmp, hx, hb]
        simp [jsSortInsert, this, hx]
      · have hx1 : sectionPriority x = 1 := by
          unfold sectionPriority at hx ⊢; split <;> simp_all
        have : ¬ sectionCmp x b < 0 := by simp [sectionCmp, hx1, hb]
        have ht := ihB (fun b hb => hB b (by simp [hb]))
        simp [jsSortInsert, this, hx] at ht ⊢
        exact ht
  | cons a t ih =>
    intro B hA hB
    have ha := hA a (by simp)
    have hcmp : ¬ sectionCmp x a < 0 := by
      simp [sectionCmp, ha]
    have ht := ih B (fun a ha => hA a (by simp [ha])) hB
    by_cases hx : sectionPriority x = 0 <;>
      simp only [jsSortInsert, if_neg hcmp, hx, if_pos, if_neg, List.cons_append] at ht ⊢ <;>
      simp [ht, hx]

theorem jsStableSort_split (l : List String) :
    ∀ A B : List String, (∀ a ∈ A, sectionPriority a = 0) →
      (∀ b ∈ B, sectionPriority b = 1) →
      l.foldl (fun acc x => jsSortInsert sectionCmp x acc) (A ++ B)
        = (A ++ l.filter (fun s => sectionPriority s = 0))
          ++ (B ++ l.filter (fun s => sectionPriority s = 1)) := by
  induction l with
  | nil => intro A B _ _; simp
  | cons x t ih =>
    intro A B hA hB
    by_cases hx : sectionPriority x = 0
    · have step : jsSortInsert sectionCmp x (A ++ B) = (A ++ [x]) ++ B := by
        rw [jsSortInsert_split x A B hA hB]; simp [hx]
      have ht := ih (A ++ [x]) B
        (by intro a ha; rcases List.mem_append.mp ha with h | h
            · exact hA a h
            · simp at h; subst h; exact hx) hB
      have hx1 : ¬ sectionPriority x = 1 := by omega
      simp only [List.foldl_cons, step, ht, List.filter_cons]
      simp [hx, hx1]
    · have hx1 : sectionPriority x = 1 := by
        unfold sectionPriority at hx ⊢; split <;> simp_all
      have step : jsSortInsert sectionCmp x (A ++ B) = A ++ (B ++ [x]) := by
        rw [jsSortInsert_split x A B hA hB]; simp [hx]
      have ht := ih A (B ++ [x]) hA
        (by intro b hb; rcases List.mem_append.mp hb with h | h
            · exact hB b h
            · simp at h; subst h; exact hx1)
      simp only [List.foldl_cons, step, ht, List.filter_cons]
      simp [hx, hx1]

theorem correctSections_split (secs : List String) :
    correctSections secs
      = (secs.filter (fun s => s ≠ "МКБ")).filter (fun s => sectionPriority s = 0)
        ++ (secs.filter (fun s => s ≠ "МКБ")).filter (fun s => sectionPriority s = 1) := by
  have := jsStableSort_split (secs.filter (fun s => s ≠ "МКБ")) [] []
    (by simp) (by simp)
  simpa [correctSections, jsStableSort] using this

/-! ## Claim theorems. -/

/-- Claim C5: the displayed section list drops every "МКБ", puts the
priority titles "Лечение"/"Диагностика" before all others while keeping the
original relative order inside each priority group (the two filters of a
stable partition), shows one button per displayed section, and the buttons
are laid out at most two per row whose concatenation is the full button
list in order; on `["МКБ","Лечение","Диагностика","Прочее"]` the displayed
order is Лечение, Диагностика, Прочее. -/
theorem C5_section_display (w : W) (secs : List String) :
    correctSections secs
      = (secs.filter (fun s => s ≠ "МКБ")).filter (fun s => sectionPriority s = 0)
        ++ (secs.filter (fun s => s ≠ "МКБ")).filter (fun s => sectionPriority s = 1)
    ∧ (sectionButtons w (correctSections secs)).2.map KButton.label = correctSections secs
    ∧ (chunk2 (sectionButtons w (correctSections secs)).2).flatten
        = (sectionButtons w (correctSections secs)).2
    ∧ (∀ r ∈ chunk2 (sectionButtons w (correctSections secs)).2, r.length ≤ 2 ∧ r ≠ [])
    ∧ correctSections ["МКБ", "Лечение", "Диагностика", "Прочее"]
        = ["Лечение", "Диагностика", "Прочее"] := by
  refine ⟨correctSections_split secs, sectionButtons_labels _ w, chunk2_flatten _,
    chunk2_rows _, by decide⟩

/-- Claim C5 witness at a concrete input. -/
theorem C5_section_display_witness :
    ∀ r ∈ chunk2 (sectionButtons
        ⟨⟨some 1, some { messageIds := some [], callbackMap := some (.obj []) }⟩, [], [], 0⟩
        (correctSections ["МКБ", "Лечение", "Диагностика", "Прочее"])).2,
      r.length ≤ 2 ∧ r ≠ [] :=
  (C5_section_display
    ⟨⟨some 1, some { messageIds := some [], callbackMap := some (.obj []) }⟩, [], [], 0⟩
    ["МКБ", "Лечение", "Диагностика", "Прочее"]).2.2.2.1

/-- Claim C3: the code exits fatally when the bot token is absent, but an
absent `API_BASE_URL` falls back to the default `"http://localhost"` and
the process launches — the `if (!API_BASE_URL) process.exit(1)` check is
unreachable, contradicting the intended fatal-exit behavior the adjacent
check expresses. -/
theorem C3_startup_eval :
    startup { botToken := some "t", apiBaseUrl := none }
        = .launched "t" "http://localhost"
    ∧ startup { botToken := none, apiBaseUrl := some "u" }
        = .exited 1 "Please set BOT_TOKEN environment variable" := by
  exact ⟨rfl, rfl⟩

/-- The default state the middleware attaches when the store has no entry
(src/index.ts lines 146-149). -/
def middlewareDefault : UserState :=
  { messageIds := some [], callbackMap := some (.obj []) }

/-- Claim C6: after `clearPreviousMessages` completes — for any outcome of
the individual per-message deletes — the `messageIds` sequence of the
context state and of the stored state of that user is empty, given the
middleware invariant that the context state is the stored state (or the
fresh default) of the sending user. -/
theorem C6_clear_empties_messageIds (env : HandlerEnv) (w : W) (uid : Nat)
    (h1 : w.ctx.fromId = some uid) (h2 : uid ≠ 0)
    (h3 : w.ctx.userState = some ((storeGet w.store uid).getD middlewareDefault)) :
    ((((clearPreviousMessages env w).ctx.userState).bind
        (fun s => s.messageIds)).getD []) = []
    ∧ (((storeGet (clearPreviousMessages env w).store uid).bind
        (fun s => s.messageIds)).getD []) = [] := by
  unfold clearPreviousMessages
  rw [h1]
  simp only [truthyId, if_neg h2, h3]
  rcases hg : storeGet w.store uid with _ | st
  · simp [hg, h3, middlewareDefault]
  · rcases hm : st.messageIds with _ | ids
    · simp [hg, hm, h3]
    · rcases ids with _ | ⟨m, ids⟩
      · simp [hg, hm, h3]
      · simp [hg, hm, h3, storeGet_updateUserState_self, mergeUserState]

/-- Claim C6 witness at a concrete state with one pending message and a
failing delete. -/
theorem C6_clear_empties_messageIds_witness :
    ((((clearPreviousMessages ⟨fun n => n, fun _ => false, .ok ""⟩
        ⟨⟨some 1, some ((storeGet [(1, { messageIds := some [7] })] 1).getD middlewareDefault)⟩,
          [(1, { messageIds := some [7] })], [], 0⟩).ctx.userState).bind
        (fun s => s.messageIds)).getD []) = [] :=
  (C6_clear_empties_messageIds ⟨fun n => n, fun _ => false, .ok ""⟩
    ⟨⟨some 1, some ((storeGet [(1, { messageIds := some [7] })] 1).getD middlewareDefault)⟩,
      [(1, { messageIds := some [7] })], [], 0⟩ 1 rfl (by decide) rfl).1

/-- Claim C10: without a truthy user id or without an attached user state,
`storeCallbackMapping` stores nothing, leaves the whole interaction state
unchanged, and returns `""`, so the diagnosis button callback data built
from it is the bare `"select_diagnosis:"` prefix. -/
theorem C10_store_mapping_no_user (w : W) (v ty : String)
    (h : w.ctx.fromId = none ∨ w.ctx.userState = none) :
    (storeCallbackMapping w v ty).1 = ""
    ∧ (storeCallbackMapping w v ty).2 = w
    ∧ "select_diagnosis:" ++ (storeCallbackMapping w v ty).1 = "select_diagnosis:" := by
  rcases h with h | h
  · unfold storeCallbackMapping
    rw [h]
    exact ⟨rfl, rfl, rfl⟩
  · unfold storeCallbackMapping
    rcases ht : truthyId w.ctx.fromId with _ | u
    · exact ⟨rfl, rfl, rfl⟩
    · rw [h]; exact ⟨rfl, rfl, rfl⟩

/-- Claim C10 witness: a context without a user id. -/
theorem C10_store_mapping_no_user_witness :
    (storeCallbackMapping ⟨⟨none, some {}⟩, [], [], 0⟩ "Грипп" "diagnosis").1 = ""
    ∧ (storeCallbackMapping ⟨⟨none, some {}⟩, [], [], 0⟩ "Грипп" "diagnosis").2
        = ⟨⟨none, some {}⟩, [], [], 0⟩ :=
  ⟨(C10_store_mapping_no_user ⟨⟨none, some {}⟩, [], [], 0⟩ "Грипп" "diagnosis" (.inl rfl)).1,
   (C10_store_mapping_no_user ⟨⟨none, some {}⟩, [], [], 0⟩ "Грипп" "diagnosis" (.inl rfl)).2.1⟩

/-- A fresh interaction state: user 1, the middleware default state,
empty store and trace. -/
def freshW : W :=
  ⟨⟨some 1, some { messageIds := some [], callbackMap := some (.obj []) }⟩, [], [], 0⟩

/-- A handler environment whose details are irrelevant to the statement
using it. -/
def plainEnv : HandlerEnv := ⟨fun n => n + 100, fun _ => true, .ok "C"⟩

/-- Claim C1: the claim says one selection button per returned candidate;
the code's candidate filter compares `diagnosis.lastIndexOf(diagnosis)`
(a position in the candidate STRING, always 0 — the intended receiver was
the array) with `diagnoses.indexOf(diagnosis)`, so every candidate not
equal to the first is dropped: for the two-candidate search result
`["A", "B"]` only one diagnosis button (for "A") is shown. -/
theorem C1_missing_candidate_button :
    correctDiagnoses ["A", "B"] = ["A"]
    ∧ (showDiagnosisOptions plainEnv freshW ["A", "B"]).eff
        = [.replyMd "Найдены следующие диагнозы. Выберите подходящий:"
            [[⟨"A", "select_diagnosis:" ++ generateHash "A"⟩], [newDiagBtn]]] := by
  constructor
  · rfl
  · rfl

/-! Helper lemmas about the effect traces and state framing of the
controller steps. -/

theorem saveMessageId_eff (w : W) (m : Nat) : (saveMessageId w m).eff = w.eff := by
  unfold saveMessageId
  rcases truthyId w.ctx.fromId with _ | u
  · rfl
  · rcases w.ctx.userState with _ | st <;> rfl

theorem emitReply_eff (env : HandlerEnv) (w : W) (t : String) (kb : List (List KButton)) :
    (emitReply env w t kb).1.eff = w.eff ++ [.replyMd t kb] := rfl

theorem sendErrorMessage_eff (env : HandlerEnv) (w : W) (msg : String) :
    (sendErrorMessage env w msg).eff
      = w.eff ++ [.replyMd (msg ++ ". Пожалуйста, попробуйте снова.") [[newDiagBtn]]] := by
  unfold sendErrorMessage
  rw [saveMessageId_eff, emitReply_eff]

theorem sendLoadError_eff (env : HandlerEnv) (w : W) :
    (sendLoadError env w).eff
      = w.eff ++ [.replyMd "Произошла ошибка при загрузке информации. Попробуйте позже."
          [[newDiagBtn]]] := by
  unfold sendLoadError
  rw [saveMessageId_eff, emitReply_eff]

theorem clear_eff_shape (env : HandlerEnv) (w : W) :
    ∀ e ∈ (clearPreviousMessages env w).eff, e ∈ w.eff ∨ ∃ m, e = Effect.deleteMsg m := by
  unfold clearPreviousMessages
  rcases ht : truthyId w.ctx.fromId with _ | u
  · exact fun e he => .inl he
  · rcases hs : w.ctx.userState with _ | st
    · exact fun e he => .inl he
    · simp only []
      rcases hm : st.messageIds with _ | ids
      · exact fun e he => .inl he
      · rcases ids with _ | ⟨m, ids⟩
        · exact fun e he => .inl he
        · intro e he
          simp only [hm, List.mem_append, List.mem_map] at he
          rcases he with h | ⟨m2, _, h⟩
          · exact .inl h
          · exact .inr ⟨m2, h.symm⟩

theorem clear_fromId (env : HandlerEnv) (w : W) :
    (clearPreviousMessages env w).ctx.fromId = w.ctx.fromId := by
  unfold clearPreviousMessages
  rcases ht : truthyId w.ctx.fromId with _ | u
  · rfl
  · rcases hs : w.ctx.userState with _ | st
    · rfl
    · simp only []
      rcases hm : st.messageIds with _ | ids
      · rfl
      · rcases ids with _ | ⟨m, ids⟩ <;> simp [hm]

theorem resolve_clear (env : HandlerEnv) (w : W) (k : String) :
    resolveCallbackMapping (clearPreviousMessages env w) k = resolveCallbackMapping w k := by
  unfold clearPreviousMessages
  rcases ht : truthyId w.ctx.fromId with _ | u
  · rfl
  · rcases hs : w.ctx.userState with _ | st
    · rfl
    · simp only []
      rcases hm : st.messageIds with _ | ids
      · rfl
      · rcases ids with _ | ⟨m, ids⟩
        · rfl
        · unfold resolveCallbackMapping
          simp [hm, ht, hs]

/-- Property read on the context's callback map. -/
def ctxCbGet (w : W) (k : String) : Option String :=
  (w.ctx.userState.bind (fun s => s.callbackMap)).bind (fun cb => cbGet cb k)

theorem resolve_of_ctxCbGet_none (w : W) (k : String)
    (h : ctxCbGet w k = none) : resolveCallbackMapping w k = none := by
  unfold ctxCbGet at h
  unfold resolveCallbackMapping
  rcases truthyId w.ctx.fromId with _ | u
  · rfl
  · rcases hs : w.ctx.userState with _ | st
    · rfl
    · rcases hcb : st.callbackMap with _ | cb
      · simp [hs, hcb]
      · simp [hs, hcb] at h
        simp [hcb, h]

theorem ctxCbGet_clear (env : HandlerEnv) (w : W) (k : String) :
    ctxCbGet (clearPreviousMessages env w) k = ctxCbGet w k := by
  unfold clearPreviousMessages
  rcases ht : truthyId w.ctx.fromId with _ | u
  · rfl
  · rcases hs : w.ctx.userState with _ | st
    · rfl
    · simp only []
      rcases hm : st.messageIds with _ | ids
      · rfl
      · rcases ids with _ | ⟨m, ids⟩
        · rfl
        · unfold ctxCbGet
          simp [hm, hs]

/-- Claim C8: a `select_section:<hash>` press whose key `section:<hash>` is
absent from the user's callback map yields the fixed "Раздел не найден"
reply (distinct from the API-failure reply), emits no content-API fetch,
and the handler completes normally (the trace below is its total result,
no exception path exists on this branch). -/
theorem C8_absent_hash_not_found (env : HandlerEnv) (w : W) (hash : String)
    (h0 : w.eff = []) (h3 : ctxCbGet w ("section:" ++ hash) = none) :
    Effect.replyMd "Раздел не найден. Пожалуйста, попробуйте снова." [[newDiagBtn]]
        ∈ (handleSectionSelection env w hash).eff
    ∧ (∀ d t, Effect.fetchContent d t ∉ (handleSectionSelection env w hash).eff)
    ∧ "Раздел не найден. Пожалуйста, попробуйте снова."
        ≠ "Произошла ошибка при загрузке информации. Попробуйте позже." := by
  have hres : resolveCallbackMapping (clearPreviousMessages env w) ("section:" ++ hash)
      = none :=
    resolve_of_ctxCbGet_none _ _ ((ctxCbGet_clear env w _).trans h3)
  have heff : (handleSectionSelection env w hash).eff
      = (clearPreviousMessages env w).eff
        ++ [.replyMd "Раздел не найден. Пожалуйста, попробуйте снова." [[newDiagBtn]]] := by
    unfold handleSectionSelection
    simp only [hres, sendErrorMessage_eff]
    rfl
  refine ⟨?_, ?_, by decide⟩
  · rw [heff]; simp
  · intro d t hmem
    rw [heff] at hmem
    rcases List.mem_append.mp hmem with h | h
    · rcases clear_eff_shape env w _ h with h4 | ⟨m, h4⟩
      · rw [h0] at h4; simp at h4
      · simp at h4
    · simp at h

/-- Claim C8 witness: a concrete state whose callback map lacks the key. -/
theorem C8_absent_hash_not_found_witness :
    Effect.replyMd "Раздел не найден. Пожалуйста, попробуйте снова." [[newDiagBtn]]
      ∈ (handleSectionSelection plainEnv freshW "h").eff :=
  (C8_absent_hash_not_found plainEnv freshW "h" rfl rfl).1

/-- A state whose callback map resolves `section:h` to a title ("X") that
is NOT a member of the stored `sections` (["Y"]), with a diagnosis set. -/
def secState : UserState :=
  { diagnosis := some "D", sections := some ["Y"], messageIds := some [],
    callbackMap := some (.obj [("section:h", "X")]) }

/-- The interaction state carrying `secState` for user 1. -/
def secW : W := ⟨⟨some 1, some secState⟩, [(1, secState)], [], 0⟩

/-- Claim C2 counterexample: the resolved title "X" is not a member of the
user's current sections ["Y"], yet the controller still calls the content
API — the membership precondition the claim states is not checked by
`processSectionSelection`. -/
theorem C2_membership_not_checked :
    Effect.fetchContent "D" "X" ∈ (handleSectionSelection plainEnv secW "h").eff
    ∧ ¬ ("X" ∈ (secState.sections.getD [])) := by
  constructor
  · decide
  · decide

/-- `userState?.diagnosis` read from the persisted store. -/
def rawDiag (w : W) (uid : Nat) : Option String :=
  (storeGet w.store uid).bind (fun s => s.diagnosis)

/-- The truthy diagnosis guard of `processSectionSelection`
(`!userState?.diagnosis`): `none` when absent or empty. -/
def diagnosisOf (w : W) (uid : Nat) : Option String :=
  match rawDiag w uid with
  | none => none
  | some d => if d = "" then none else some d

theorem storeGet_storeSet_ne (l : SessionStore) (u u2 : Nat) (v : UserState)
    (h : u2 ≠ u) : storeGet (storeSet l u2 v) u = storeGet l u := by
  induction l with
  | nil => simp [storeSet, storeGet, h]
  | cons e t ih =>
    by_cases he : e.1 = u2
    · simp [storeSet, storeGet, he, h]
    · simp [storeSet, storeGet, he, ih]

theorem rawDiag_update_frame (w : W) (u2 uid : Nat) (p : UserStatePatch)
    (hp : p.diagnosis = none) :
    rawDiag { w with store := updateUserState w.store u2 p } uid = rawDiag w uid := by
  by_cases he : u2 = uid
  · subst he
    unfold rawDiag
    simp only [storeGet_updateUserState_self]
    rcases hg : storeGet w.store u2 with _ | st <;>
      simp [hg, mergeUserState, hp, emptyUserState]
  · unfold rawDiag updateUserState
    simp [storeGet_storeSet_ne _ _ _ _ he]

theorem rawDiag_clear (env : HandlerEnv) (w : W) (uid : Nat) :
    rawDiag (clearPreviousMessages env w) uid = rawDiag w uid := by
  unfold clearPreviousMessages
  rcases ht : truthyId w.ctx.fromId with _ | u
  · rfl
  · rcases hs : w.ctx.userState with _ | st
    · rfl
    · simp only []
      rcases hm : st.messageIds with _ | ids
      · rfl
      · rcases ids with _ | ⟨m, ids⟩
        · rfl
        · simp only [hm]
          exact rawDiag_update_frame
            { w with eff := w.eff ++ (m :: ids).map Effect.deleteMsg } u uid _ rfl

/-- Claim C2, amended: on a `select_section:<hash>` press the controller
fetches the section content exactly when the hash resolves under
`section:<hash>` in the user's callback map AND the persisted diagnosis is
set (truthy); the resolved title's membership in the current `sections` is
NOT checked. When the hash does not resolve it replies with the fixed
"Раздел не найден" error and does not fetch; when the diagnosis is unset it
replies with the fixed "Информация не найдена" error and does not fetch. -/
theorem C2_fetch_iff_resolved_and_diagnosis (env : HandlerEnv) (w : W)
    (hash : String) (uid : Nat)
    (h0 : w.eff = []) (h1 : w.ctx.fromId = some uid) (h2 : uid ≠ 0) :
    (resolveCallbackMapping w ("section:" ++ hash) = none →
      Effect.replyMd "Раздел не найден. Пожалуйста, попробуйте снова." [[newDiagBtn]]
          ∈ (handleSectionSelection env w hash).eff
        ∧ ∀ d t, Effect.fetchContent d t ∉ (handleSectionSelection env w hash).eff)
    ∧ (∀ t d, resolveCallbackMapping w ("section:" ++ hash) = some t →
        diagnosisOf w uid = some d →
        Effect.fetchContent d t ∈ (handleSectionSelection env w hash).eff)
    ∧ (∀ t, resolveCallbackMapping w ("section:" ++ hash) = some t →
        diagnosisOf w uid = none →
        Effect.replyMd "Информация не найдена. Пожалуйста, попробуйте снова." [[newDiagBtn]]
            ∈ (handleSectionSelection env w hash).eff
          ∧ ∀ d t2, Effect.fetchContent d t2 ∉ (handleSectionSelection env w hash).eff) := by
  have hrc := resolve_clear env w ("section:" ++ hash)
  have hnf1 : ∀ d t, Effect.fetchContent d t ∉ (clearPreviousMessages env w).eff := by
    intro d t hmem
    rcases clear_eff_shape env w _ hmem with h | ⟨m, h⟩
    · rw [h0] at h; simp at h
    · simp at h
  have htr1 : truthyId (clearPreviousMessages env w).ctx.fromId = some uid := by
    rw [clear_fromId, h1]; simp [truthyId, h2]
  refine ⟨?_, ?_, ?_⟩
  · intro hr
    have heff : (handleSectionSelection env w hash).eff
        = (clearPreviousMessages env w).eff
          ++ [.replyMd "Раздел не найден. Пожалуйста, попробуйте снова." [[newDiagBtn]]] := by
      unfold handleSectionSelection
      simp only [hrc.trans hr, sendErrorMessage_eff]
      rfl
    refine ⟨by rw [heff]; simp, ?_⟩
    intro d t hmem
    rw [heff] at hmem
    rcases List.mem_append.mp hmem with h | h
    · exact hnf1 d t h
    · simp at h
  · intro t d hr hd
    have hproc : handleSectionSelection env w hash
        = processSectionSelection env (clearPreviousMessages env w) t := by
      unfold handleSectionSelection
      simp only [hrc.trans hr]
    rcases hraw : rawDiag w uid with _ | d0
    · simp [diagnosisOf, hraw] at hd
    · simp only [diagnosisOf, hraw] at hd
      by_cases hz : d0 = ""
      · simp [hz] at hd
      · rw [if_neg hz] at hd
        replace hd := Option.some.inj hd
        subst hd
        have hne : d0 ≠ "" := hz
        have hraw1 : (storeGet (clearPreviousMessages env w).store uid).bind
            (fun s => s.diagnosis) = some d0 := (rawDiag_clear env w uid).trans hraw
        rw [hproc]
        unfold processSectionSelection
        simp only [htr1, hraw1, if_neg hne]
        rcases hc : env.content with e | c <;>
          simp [hc, saveMessageId_eff, emitReply_eff, sendLoadError_eff]
  · intro t hr hd
    have hproc : handleSectionSelection env w hash
        = processSectionSelection env (clearPreviousMessages env w) t := by
      unfold handleSectionSelection
      simp only [hrc.trans hr]
    have herr : processSectionSelection env (clearPreviousMessages env w) t
        = sendErrorMessage env (clearPreviousMessages env w) "Информация не найдена" := by
      unfold processSectionSelection
      rcases hraw : rawDiag w uid with _ | d0
      · have hraw1 : (storeGet (clearPreviousMessages env w).store uid).bind
            (fun s => s.diagnosis) = none := (rawDiag_clear env w uid).trans hraw
        simp only [htr1, hraw1]
      · simp only [diagnosisOf, hraw] at hd
        by_cases hz : d0 = ""
        · subst hz
          have hraw1 : (storeGet (clearPreviousMessages env w).store uid).bind
              (fun s => s.diagnosis) = some "" := (rawDiag_clear env w uid).trans hraw
          simp [htr1, hraw1]
        · rw [if_neg hz] at hd; simp at hd
    have heff : (handleSectionSelection env w hash).eff
        = (clearPreviousMessages env w).eff
          ++ [.replyMd "Информация не найдена. Пожалуйста, попробуйте снова." [[newDiagBtn]]] := by
      rw [hproc, herr, sendErrorMessage_eff]
      rfl
    refine ⟨by rw [heff]; simp, ?_⟩
    intro d t2 hmem
    rw [heff] at hmem
    rcases List.mem_append.mp hmem with h | h
    · exact hnf1 d t2 h
    · simp at h

/-- Claim C2 witness: in the concrete state `secW` the hash resolves to
"X", the diagnosis "D" is set, and the content API is called. -/
theorem C2_fetch_iff_resolved_and_diagnosis_witness :
    Effect.fetchContent "D" "X" ∈ (handleSectionSelection plainEnv secW "h").eff :=
  (C2_fetch_iff_resolved_and_diagnosis plainEnv secW "h" 1 rfl rfl
    (by decide)).2.1 "X" "D" rfl rfl

/-! ## Claim C9: `updateUserState` as a shallow merge persisted
immediately. -/

/-- The session manager's observable state: the in-memory store and the
content last written to `session.json` (`none` before the first write). -/
structure ManagerState where
  mem : SessionStore
  file : Option SerializedStore
  deriving DecidableEq

/-- `SessionManager.updateUserState` (src/index.ts lines 86-93): merge into
the (possibly fresh) entry, then `saveSessions()` rewrites the whole file
from the updated memory. -/
def managerUpdate (m : ManagerState) (u : Nat) (p : UserStatePatch) : ManagerState :=
  let mem2 := updateUserState m.mem u p
  { mem := mem2, file := some (saveSessions mem2) }

/-- Claim C9: `update(userId, partial)` shallow-merges the partial into the
existing state — creating an empty state first when none exists — so that
every field named in the partial is replaced wholesale by the partial's
value and every unnamed field keeps the existing value, and the whole store
is persisted immediately from the updated memory. -/
theorem C9_update_shallow_merge (m : ManagerState) (u : Nat) (p : UserStatePatch) :
    ∃ st2, storeGet (managerUpdate m u p).mem u = some st2
    ∧ (∀ v, p.diagnosis = some v → st2.diagnosis = v)
    ∧ (p.diagnosis = none →
        st2.diagnosis = (((storeGet m.mem u).getD emptyUserState).diagnosis))
    ∧ (∀ v, p.sections = some v → st2.sections = v)
    ∧ (p.sections = none →
        st2.sections = (((storeGet m.mem u).getD emptyUserState).sections))
    ∧ (∀ v, p.messageIds = some v → st2.messageIds = v)
    ∧ (p.messageIds = none →
        st2.messageIds = (((storeGet m.mem u).getD emptyUserState).messageIds))
    ∧ (∀ v, p.callbackMap = some v → st2.callbackMap = v)
    ∧ (p.callbackMap = none →
        st2.callbackMap = (((storeGet m.mem u).getD emptyUserState).callbackMap))
    ∧ (∀ v, p.currentSection = some v → st2.currentSection = v)
    ∧ (p.currentSection = none →
        st2.currentSection = (((storeGet m.mem u).getD emptyUserState).currentSection))
    ∧ (managerUpdate m u p).file = some (saveSessions (managerUpdate m u p).mem) := by
  refine ⟨mergeUserState ((storeGet m.mem u).getD emptyUserState) p, ?_,
    ?_, ?_, ?_, ?_, ?_, ?_, ?_, ?_, ?_, ?_, rfl⟩
  · exact storeGet_updateUserState_self m.mem u p
  all_goals
    intros
    simp_all [mergeUserState]

/-- Claim C9 witness: a concrete update on an occupied entry replaces the
named `callbackMap` field wholesale (no deep merge with the existing map)
and keeps the unnamed `diagnosis` field. -/
theorem C9_update_shallow_merge_witness :
    ∃ st2, storeGet (managerUpdate
        ⟨[(1, { diagnosis := some "D", callbackMap := some (.obj [("a", "1")]) })], none⟩ 1
        { callbackMap := some (some (.obj [("b", "2")])) }).mem 1 = some st2
      ∧ st2.callbackMap = some (.obj [("b", "2")])
      ∧ st2.diagnosis = some "D" := by
  obtain ⟨st2, hg, _, hdn, _, _, _, _, hcb, _, _, _, _⟩ :=
    C9_update_shallow_merge
      ⟨[(1, { diagnosis := some "D", callbackMap := some (.obj [("a", "1")]) })], none⟩ 1
      { callbackMap := some (some (.obj [("b", "2")])) }
  exact ⟨st2, hg, hcb _ rfl, (hdn rfl).trans (by decide)⟩

/-! ## Claim C7: persistence round trip over any mutation sequence. -/

/-- The store's mutating API (src/index.ts lines 81-105). -/
inductive StoreOp where
  | setU (u : Nat) (st : UserState)
  | updU (u : Nat) (p : UserStatePatch)
  | delU (u : Nat)
  | clearOp
  deriving DecidableEq

/-- One store mutation on the in-memory data (each one is followed by a
full `saveSessions` rewrite in the source; the file content after a
sequence is therefore `saveSessions` of the final memory). -/
def applyOp (l : SessionStore) : StoreOp → SessionStore
  | .setU u st => storeSet l u st
  | .updU u p => updateUserState l u p
  | .delU u => storeDel l u
  | .clearOp => []

/-- A mutation sequence applied in order. -/
def applyOps (ops : List StoreOp) (l : SessionStore) : SessionStore :=
  ops.foldl applyOp l

/-- A state is in the canonical in-memory form the implementation itself
constructs: its callback map, when present, is a plain object (the `Map`
form arises only from loading a legacy array-encoded file). -/
def cbCanonSt (st : UserState) : Bool :=
  match st.callbackMap with
  | some (.jsMap _ _) => false
  | _ => true

/-- A mutation carries only canonical-form callback maps, as every call
site in the controller does. -/
def opCanon : StoreOp → Bool
  | .setU _ st => cbCanonSt st
  | .updU _ p =>
    match p.callbackMap with
    | some (some (.jsMap _ _)) => false
    | _ => true
  | .delU _ => true
  | .clearOp => true

/-- Every entry of the store is canonical. -/
abbrev storeCanon (l : SessionStore) : Prop := ∀ e ∈ l, cbCanonSt e.2 = true

theorem loadState_saveState (st : UserState) (h : cbCanonSt st = true) :
    loadState (saveState st) = st := by
  rcases st with ⟨d, s, m, cb, cs⟩
  rcases cb with _ | cb
  · rfl
  · rcases cb with props | ⟨e, p⟩
    · rfl
    · simp [cbCanonSt] at h

theorem loadSessions_saveSessions (l : SessionStore) (h : storeCanon l) :
    loadSessions (saveSessions l) = l := by
  induction l with
  | nil => rfl
  | cons e t ih =>
    have he := h e (List.mem_cons_self e t)
    have ht : storeCanon t := fun x hx => h x (List.mem_cons_of_mem e hx)
    show (e.1, loadState (saveState e.2)) :: loadSessions (saveSessions t) = e :: t
    rw [loadState_saveState e.2 he, ih ht]

theorem storeGet_canon (l : SessionStore) (u : Nat) (st : UserState)
    (h : storeCanon l) (hg : storeGet l u = some st) : cbCanonSt st = true := by
  induction l with
  | nil => simp [storeGet] at hg
  | cons e t ih =>
    by_cases he : e.1 = u
    · simp only [storeGet, if_pos he] at hg
      injection hg with hg2
      exact hg2 ▸ h e (List.mem_cons_self e t)
    · simp only [storeGet, if_neg he] at hg
      exact ih (fun x hx => h x (List.mem_cons_of_mem e hx)) hg

theorem storeSet_canon (l : SessionStore) (u : Nat) (v : UserState)
    (h : storeCanon l) (hv : cbCanonSt v = true) : storeCanon (storeSet l u v) := by
  induction l with
  | nil =>
    intro e he
    simp only [storeSet] at he
    simp only [List.mem_singleton] at he
    exact he ▸ hv
  | cons e0 t ih =>
    intro e he
    by_cases h0 : e0.1 = u
    · simp only [storeSet, if_pos h0, List.mem_cons] at he
      rcases he with he | he
      · exact he ▸ hv
      · exact h _ (List.mem_cons_of_mem e0 he)
    · simp only [storeSet, if_neg h0, List.mem_cons] at he
      rcases he with he | he
      · exact he ▸ h e0 (List.mem_cons_self e0 t)
      · exact ih (fun x hx => h x (List.mem_cons_of_mem e0 hx)) e he

theorem storeDel_canon (l : SessionStore) (u : Nat)
    (h : storeCanon l) : storeCanon (storeDel l u) := by
  induction l with
  | nil => intro e he; simp [storeDel] at he
  | cons e0 t ih =>
    intro e he
    by_cases h0 : e0.1 = u
    · simp only [storeDel, if_pos h0] at he
      exact h e (List.mem_cons_of_mem e0 he)
    · simp only [storeDel, if_neg h0, List.mem_cons] at he
      rcases he with he | he
      · exact he ▸ h e0 (List.mem_cons_self e0 t)
      · exact ih (fun x hx => h x (List.mem_cons_of_mem e0 hx)) e he

theorem updateUserState_canon (l : SessionStore) (u : Nat) (p : UserStatePatch)
    (h : storeCanon l)
    (hp : (match p.callbackMap with
      | some (some (.jsMap _ _)) => false
      | _ => true) = true) : storeCanon (updateUserState l u p) := by
  apply storeSet_canon l u _ h
  rcases hcb : p.callbackMap with _ | ocb
  · simp only [cbCanonSt, mergeUserState, hcb, Option.getD]
    rcases hg : storeGet l u with _ | st
    · simp [emptyUserState]
    · have := storeGet_canon l u st h hg
      simpa [cbCanonSt] using this
  · rcases ocb with _ | cb
    · simp [cbCanonSt, mergeUserState, hcb]
    · rcases cb with props | ⟨e, pr⟩
      · simp [cbCanonSt, mergeUserState, hcb]
      · rw [hcb] at hp; simp at hp

theorem applyOps_canon (ops : List StoreOp) :
    ∀ l : SessionStore, storeCanon l → (∀ op ∈ ops, opCanon op = true) →
      storeCanon (applyOps ops l) := by
  induction ops with
  | nil => intro l h _; exact h
  | cons op t ih =>
    intro l h hops
    have hop := hops op (List.mem_cons_self op t)
    have ht : ∀ o ∈ t, opCanon o = true := fun o ho => hops o (List.mem_cons_of_mem op ho)
    show storeCanon (applyOps t (applyOp l op))
    apply ih _ _ ht
    rcases op with ⟨u, st⟩ | ⟨u, p⟩ | u | _
    · exact storeSet_canon l u st h (by simpa [opCanon] using hop)
    · exact updateUserState_canon l u p h (by simpa [opCanon] using hop)
    · exact storeDel_canon l u h
    · intro e he; simp [applyOp] at he

/-- Claim C7: for every sequence of store mutations carrying the canonical
(plain-object) callback-map encoding — the only encoding the current
implementation constructs and writes — serializing the resulting store to
the session file and re-loading it (a simulated restart) reproduces, for
every user, exactly the in-memory entry, and with it the callback map. -/
theorem C7_save_load_roundtrip (ops : List StoreOp)
    (h : ∀ op ∈ ops, opCanon op = true) (u : Nat) :
    storeGet (loadSessions (saveSessions (applyOps ops []))) u
      = storeGet (applyOps ops []) u := by
  rw [loadSessions_saveSessions _ (applyOps_canon ops [] (by intro e he; simp at he) h)]

/-- Claim C7 witness: a concrete mutation sequence (a callback-map update
and a wholesale set) survives the save/load round trip. -/
theorem C7_save_load_roundtrip_witness :
    storeGet (loadSessions (saveSessions (applyOps
        [.updU 1 { callbackMap := some (some (.obj [("diagnosis:x", "A")])) },
         .setU 2 { diagnosis := some "D" }] [])))
      1
      = storeGet (applyOps
        [.updU 1 { callbackMap := some (some (.obj [("diagnosis:x", "A")])) },
         .setU 2 { diagnosis := some "D" }] []) 1 :=
  C7_save_load_roundtrip
    [.updU 1 { callbackMap := some (some (.obj [("diagnosis:x", "A")])) },
     .setU 2 { diagnosis := some "D" }] (by decide) 1

/-! ## Claim C4: resolution of a selected diagnosis under the truncated
digest. The scheme keys the callback map by `diagnosis:<hash>` alone, so
everything depends on whether the two candidates' tokens differ. -/

theorem compressStep_length (st : List Nat) (k w : Nat) :
    (compressStep st k w).length = st.length := by
  unfold compressStep
  split <;> simp

theorem foldl_compressStep_length (l : List (Nat × Nat)) :
    ∀ st : List Nat,
      (l.foldl (fun s kw => compressStep s kw.1 kw.2) st).length = st.length := by
  induction l with
  | nil => intro st; rfl
  | cons kw t ih => intro st; rw [List.foldl_cons, ih, compressStep_length]

theorem compressBlock_length (hv b : List Nat) :
    (compressBlock hv b).length = hv.length := by
  unfold compressBlock
  simp [foldl_compressStep_length]

theorem compressBlock_bound (hv b : List Nat) : ∀ x ∈ compressBlock hv b, x < M32 := by
  intro x hx
  unfold compressBlock at hx
  simp only [List.mem_map] at hx
  obtain ⟨p, _, rfl⟩ := hx
  exact Nat.mod_lt _ (by decide)

theorem foldl_compressBlock_spec (bs : List (List Nat)) :
    ∀ hv : List Nat, hv.length = 8 → (∀ x ∈ hv, x < M32) →
      (bs.foldl compressBlock hv).length = 8
        ∧ ∀ x ∈ bs.foldl compressBlock hv, x < M32 := by
  induction bs with
  | nil => intro hv h1 h2; exact ⟨h1, h2⟩
  | cons b t ih =>
    intro hv h1 h2
    rw [List.foldl_cons]
    exact ih _ (by rw [compressBlock_length, h1]) (compressBlock_bound hv b)

theorem sha256Words_spec (msg : List Nat) :
    (sha256Words msg).length = 8 ∧ ∀ x ∈ sha256Words msg, x < M32 :=
  foldl_compressBlock_spec _ H0 rfl (by decide)

theorem foldl_digits_lt (l : List Nat) :
    ∀ acc : Nat, (∀ x ∈ l, x < M32) →
      l.foldl (fun a w => a * M32 + w) acc < (acc + 1) * M32 ^ l.length := by
  induction l with
  | nil => intro acc _; simp
  | cons w t ih =>
    intro acc h
    rw [List.foldl_cons]
    have hw : w < M32 := h w (by simp)
    have hs := ih (acc * M32 + w) (fun x hx => h x (by simp [hx]))
    calc t.foldl (fun a w => a * M32 + w) (acc * M32 + w)
        < (acc * M32 + w + 1) * M32 ^ t.length := hs
      _ ≤ ((acc + 1) * M32) * M32 ^ t.length := by
          apply Nat.mul_le_mul_right
          rw [Nat.succ_mul]
          omega
      _ = (acc + 1) * M32 ^ (w :: t).length := by
          simp [List.length_cons, pow_succ]
          ring

theorem sha256Nat_lt (msg : List Nat) : sha256Nat msg < 16 ^ 64 := by
  unfold sha256Nat
  obtain ⟨h1, h2⟩ := sha256Words_spec msg
  have hlt := foldl_digits_lt (sha256Words msg) 0 h2
  rw [h1] at hlt
  have he : (0 + 1) * M32 ^ 8 = 16 ^ 64 := by norm_num [M32]
  exact he ▸ hlt

theorem hexDigits_length : ∀ k n : Nat, (hexDigits k n).length = k
  | 0, _ => rfl
  | k + 1, n => by simp [hexDigits, hexDigits_length k]

theorem hexDigits_split (a : Nat) : ∀ b n : Nat,
    hexDigits (a + b) n = hexDigits a (n / 16 ^ b) ++ hexDigits b (n % 16 ^ b)
  | 0, n => by simp [hexDigits]
  | b + 1, n => by
    show hexDigits (a + b) (n / 16) ++ [hexChar (n % 16)] = _
    rw [hexDigits_split a b (n / 16)]
    have e1 : n / 16 / 16 ^ b = n / 16 ^ (b + 1) := by
      rw [Nat.div_div_eq_div_mul, ← pow_succ']
    have e2 : n % 16 ^ (b + 1) / 16 = n / 16 % 16 ^ b := by
      rw [pow_succ']
      exact Nat.mod_mul_right_div_self n 16 (16 ^ b)
    have e3 : n % 16 ^ (b + 1) % 16 = n % 16 :=
      Nat.mod_mod_of_dvd n (dvd_pow_self 16 (Nat.succ_ne_zero b))
    show _ = hexDigits a (n / 16 ^ (b + 1))
        ++ (hexDigits b (n % 16 ^ (b + 1) / 16) ++ [hexChar (n % 16 ^ (b + 1) % 16)])
    rw [e1, e2, e3, List.append_assoc]

theorem take32_hexDigits (n : Nat) :
    (hexDigits 64 n).take 32 = hexDigits 32 (n / 16 ^ 32) := by
  have h := hexDigits_split 32 32 n
  norm_num at h
  rw [h]
  exact List.take_left' (hexDigits_length 32 _)

/-- The high 128 bits of the digest, i.e. the value the 32 kept hex
characters of `generateHash` spell. -/
def truncVal (s : String) : Nat := sha256Nat (utf8Bytes s) / 16 ^ 32

theorem generateHash_high (s : String) :
    generateHash s = String.mk (hexDigits 32 (truncVal s)) := by
  unfold generateHash digestHex truncVal
  rw [take32_hexDigits]

theorem truncVal_lt (s : String) : truncVal s < 16 ^ 32 := by
  unfold truncVal
  rw [Nat.div_lt_iff_lt_mul (by positivity)]
  have h := sha256Nat_lt (utf8Bytes s)
  calc sha256Nat (utf8Bytes s) < 16 ^ 64 := h
    _ = 16 ^ 32 * 16 ^ 32 := by rw [← pow_add]

/-- The token as a point of the finite truncation space. -/
def hashFin (s : String) : Fin (16 ^ 32) := ⟨truncVal s, truncVal_lt s⟩

theorem generateHash_eq_of_truncVal {a b : String} (h : truncVal a = truncVal b) :
    generateHash a = generateHash b := by
  rw [generateHash_high, generateHash_high, h]

theorem string_data_inj {s t : String} (h : s.data = t.data) : s = t := by
  cases s; cases t; simp_all

/-- `n` written as the string of `n + 1` letters `a` — an injection of the
infinitely many possible diagnosis names into nonempty strings. -/
def repUnary (n : Nat) : String := String.mk (List.replicate (n + 1) 'a')

theorem repUnary_inj : Function.Injective repUnary := by
  intro m n h
  have hd := congrArg (fun s => s.data.length) h
  simp only [repUnary, List.length_replicate] at hd
  omega

theorem repUnary_ne_empty (n : Nat) : repUnary n ≠ "" := by
  intro h
  have hd := congrArg (fun s => s.data.length) h
  simp [repUnary] at hd

/-- Pigeonhole over the 128-bit truncation space: the truncated digest is
not injective, and a colliding pair of distinct nonempty names exists. -/
theorem generateHash_not_injective :
    ∃ a b : String, a ≠ b ∧ a ≠ "" ∧ b ≠ "" ∧ generateHash a = generateHash b := by
  obtain ⟨m, n, hmn, heq⟩ :=
    Finite.exists_ne_map_eq_of_infinite (fun k : ℕ => hashFin (repUnary k))
  refine ⟨repUnary m, repUnary n, fun hc => hmn (repUnary_inj hc),
    repUnary_ne_empty m, repUnary_ne_empty n, ?_⟩
  apply generateHash_eq_of_truncVal
  simpa [hashFin, Fin.ext_iff] using heq

/-- The interaction state after `storeCallbackMapping` installs a callback
map `cb` for user `uid` whose context state was `st`. -/
def withCb (w : W) (uid : Nat) (st : UserState) (cb : CBStore) : W :=
  { w with
    store := updateUserState w.store uid { callbackMap := some (some cb) }
    ctx := { w.ctx with userState := some { st with callbackMap := some cb } } }

theorem storeCallbackMapping_step (w : W) (uid : Nat) (st : UserState) (v ty : String)
    (h1 : w.ctx.fromId = some uid) (h2 : uid ≠ 0) (h3 : w.ctx.userState = some st) :
    storeCallbackMapping w v ty
      = (generateHash v,
         withCb w uid st
           (cbSet (st.callbackMap.getD (.obj [])) (ty ++ ":" ++ generateHash v) v)) := by
  unfold storeCallbackMapping withCb
  simp only [h1, truthyId, if_neg h2, h3]

theorem resolveCallbackMapping_eval (w : W) (uid : Nat) (st : UserState) (cb : CBStore)
    (k : String)
    (h1 : w.ctx.fromId = some uid) (h2 : uid ≠ 0) (h3 : w.ctx.userState = some st)
    (h4 : st.callbackMap = some cb) :
    resolveCallbackMapping w k
      = match cbGet cb k with
        | none => none
        | some v => if v = "" then none else some v := by
  unfold resolveCallbackMapping
  simp only [h1, truthyId, if_neg h2, h3, h4]

/-- The scenario of the claim: both candidates stored (both buttons built,
as `showDiagnosisOptions` does per kept candidate), then the button bound
to the FIRST candidate is pressed: its callback data carries the first
token, and the selection handler resolves `diagnosis:<token>`. -/
def pressFirstCandidate (a b : String) : Option String :=
  resolveCallbackMapping
    (storeCallbackMapping (storeCallbackMapping freshW a "diagnosis").2 b "diagnosis").2
    ("diagnosis:" ++ (storeCallbackMapping freshW a "diagnosis").1)

theorem press_unfold (a b : String) :
    pressFirstCandidate a b
      = match objGet (objSet (objSet [] ("diagnosis:" ++ generateHash a) a)
            ("diagnosis:" ++ generateHash b) b) ("diagnosis:" ++ generateHash a) with
        | none => none
        | some v => if v = "" then none else some v := by
  unfold pressFirstCandidate
  rw [storeCallbackMapping_step freshW 1
    { messageIds := some [], callbackMap := some (.obj []) } a "diagnosis"
    rfl one_ne_zero rfl]
  simp only []
  rw [storeCallbackMapping_step _ 1 _ b "diagnosis" rfl one_ne_zero rfl]
  simp only []
  rw [resolveCallbackMapping_eval _ 1 _ _ ("diagnosis:" ++ generateHash a)
    rfl one_ne_zero rfl rfl]
  simp only [Option.getD, cbSet, cbGet]
  rw [show ("diagnosis" ++ ":" : String) = "diagnosis:" from rfl]

theorem objGet_two_collide (k a b : String) :
    objGet (objSet (objSet [] k a) k b) k = some b := by
  rw [show objSet ([] : List (String × String)) k a = [(k, a)] from rfl]
  unfold objSet
  rw [if_pos rfl]
  unfold objGet
  rw [if_pos rfl]

theorem objGet_two_distinct (ka kb a b : String) (h : ka ≠ kb) :
    objGet (objSet (objSet [] ka a) kb b) ka = some a := by
  rw [show objSet ([] : List (String × String)) ka a = [(ka, a)] from rfl]
  unfold objSet
  rw [if_neg h]
  unfold objGet
  rw [if_pos rfl]

/-- Claim C4 counterexample: the claim covers candidate pairs "including
when the two names produce the same token"; for a colliding distinct pair
(which exists by pigeonhole over the 2^128 truncated tokens), the second
store overwrites the map entry under the shared key `diagnosis:<token>`,
so pressing the button bound to the first candidate resolves to the
SECOND candidate, falsifying "resolves to A and never to B". -/
theorem C4_collision_misresolves :
    ∃ a b : String, a ≠ b
      ∧ pressFirstCandidate a b = some b
      ∧ pressFirstCandidate a b ≠ some a := by
  obtain ⟨a, b, hne, _, hb, hh⟩ := generateHash_not_injective
  have hk : ("diagnosis:" ++ generateHash a) = ("diagnosis:" ++ generateHash b) :=
    congrArg (fun t => "diagnosis:" ++ t) hh
  have hv : pressFirstCandidate a b = some b := by
    rw [press_unfold, ← hk, objGet_two_collide]
    show (if b = "" then none else some b) = some b
    exact if_neg hb
  exact ⟨a, b, hne, hv, by
    rw [hv]
    exact fun hc => hne (Option.some.inj hc).symm⟩

theorem string_append_cancel_left {s t u : String} (h : s ++ t = s ++ u) : t = u := by
  have hd : s.data ++ t.data = s.data ++ u.data := congrArg String.data h
  exact string_data_inj (List.append_cancel_left hd)

/-- Claim C4, amended: pressing the button bound to the first candidate
resolves to that candidate whenever the candidate's name is nonempty and
the two names' truncated-digest tokens DIFFER; under a token collision the
shared map key is overwritten and the press resolves to the later-stored
candidate instead. -/
theorem C4_press_resolves_first (a b : String) (ha : a ≠ "")
    (hh : generateHash a ≠ generateHash b) :
    pressFirstCandidate a b = some a := by
  have hk : ("diagnosis:" ++ generateHash a) ≠ ("diagnosis:" ++ generateHash b) :=
    fun hc => hh (string_append_cancel_left hc)
  rw [press_unfold, objGet_two_distinct _ _ _ _ hk]
  show (if a = "" then none else some a) = some a
  exact if_neg ha

set_option maxRecDepth 8000 in
/-- Claim C4 witness: for the concrete candidates "A" and "B" the tokens
differ — evaluated through the full SHA-256 — and the press resolves to
"A". -/
theorem C4_press_resolves_first_witness :
    pressFirstCandidate "A" "B" = some "A" :=
  C4_press_resolves_first "A" "B" (by decide) (by decide)

end Doctime
